import Mathlib

/-!
# Verification of the kif-record derivation (`lib/kif-parser.ts`)

This file gives a shallow embedding of the repository's kif parser:
`parseKif` (header extraction, move-line recognition, side/result
resolution, parity split) and `detectSentype` (the formation
classifier), together with theorems about the claims of the spec.

Strings are handled as `List Char` internally (JavaScript strings are
sequences of code points for the operations used here); the produced
`GameRecord` carries `String` fields, as the source record does.
The JavaScript regular expression `/^\s*(\d+)\s+(.+?)\s+\(/` is embedded
by a backtracking matcher specialised to that pattern, reproducing the
greedy/lazy alternation order of the JS engine.
-/

namespace KifParser

/-- JavaScript `\s` character class (WhiteSpace ∪ LineTerminator). -/
def jsWs (c : Char) : Bool :=
  c = ' ' || c = '\t' || c = '\n' || c = '\r' || c = '\x0b' || c = '\x0c' ||
  c = ' ' || c = Char.ofNat 0x1680 ||
  (0x2000 ≤ c.toNat && c.toNat ≤ 0x200A) ||
  c = Char.ofNat 0x2028 || c = Char.ofNat 0x2029 || c = Char.ofNat 0x202F ||
  c = Char.ofNat 0x205F || c = Char.ofNat 0x3000 || c = Char.ofNat 0xFEFF

/-- JavaScript `.` (without the `s` flag): any character except a line
terminator. -/
def jsDot (c : Char) : Bool :=
  !(c = '\n' || c = '\r' || c = Char.ofNat 0x2028 || c = Char.ofNat 0x2029)

/-- `needle` occurs at the start of `hay` (JS `String.prototype.startsWith`). -/
def startsWithL : List Char → List Char → Bool
  | [], _ => true
  | _ :: _, [] => false
  | p :: ps, c :: cs => p = c && startsWithL ps cs

/-- `needle` occurs as a contiguous run somewhere in `hay`
(JS `String.prototype.includes`). -/
def hasSubL (needle : List Char) : List Char → Bool
  | [] => startsWithL needle []
  | c :: cs => startsWithL needle (c :: cs) || hasSubL needle cs

/-- JS `s.replace(pat, '')` with a string pattern: remove the first
occurrence of `pat`, leave `s` unchanged when `pat` does not occur. -/
def replFirstEmpty (pat : List Char) : List Char → List Char
  | [] => []
  | c :: cs =>
    if startsWithL pat (c :: cs) then (c :: cs).drop pat.length
    else c :: replFirstEmpty pat cs

/-- JS `String.prototype.trim`: strip `\s` characters from both ends. -/
def jsTrimL (s : List Char) : List Char :=
  ((s.dropWhile jsWs).reverse.dropWhile jsWs).reverse

/-- Value of a run of decimal digits (JS `parseInt` on an all-digit string). -/
def digitsToNat (ds : List Char) : Nat :=
  ds.foldl (fun n c => n * 10 + (c.toNat - 48)) 0

/-! ## The move-line regular expression `/^\s*(\d+)\s+(.+?)\s+\(/`

After `^\s*` and `(\d+)` (whose greedy runs are forced, since `\s` and
`\d` are disjoint and each is followed by a class disjoint from it),
the remainder `\s+(.+?)\s+\(` needs genuine backtracking:
the first `\s+` is greedy (longest run first, giving characters back on
failure), the capture `(.+?)` is lazy (shortest first), and the trailing
`\s+\(` is again forced since `(` is not whitespace. -/

/-- The trailing `\s+\(` of the pattern: at least one whitespace
character followed by a literal `(`. -/
def tailWsParen (cs : List Char) : Bool :=
  let w := cs.takeWhile jsWs
  decide (w ≠ []) &&
    match cs.drop w.length with
    | '(' :: _ => true
    | _ => false

/-- The lazy capture `(.+?)` followed by `\s+\(`: grow the capture one
character at a time (shortest first), each character matching `.`,
returning the first capture whose remainder matches `\s+\(`. -/
def lazyGroup (acc : List Char) : List Char → Option (List Char)
  | [] => none
  | c :: rest =>
    if jsDot c then
      if tailWsParen rest then some (acc ++ [c])
      else lazyGroup (acc ++ [c]) rest
    else none

/-- Try `lazyGroup` after the first `\s+` has consumed `k` characters,
for `k` from the length of the maximal whitespace run down to `1`
(greedy order of the JS engine). -/
def wsBacktrack (cs : List Char) : Nat → Option (List Char)
  | 0 => none
  | k + 1 =>
    match lazyGroup [] (cs.drop (k + 1)) with
    | some g => some g
    | none => wsBacktrack cs k

/-- Match `/^\s*(\d+)\s+(.+?)\s+\(/` against a whole line, returning the
two captures: the ply number (group 1, via `parseInt`) and the raw move
text (group 2). -/
def kifMoveMatch (l : List Char) : Option (Nat × List Char) :=
  let afterWs := l.dropWhile jsWs
  let ds := afterWs.takeWhile Char.isDigit
  if ds = [] then none
  else
    let rest := afterWs.drop ds.length
    match wsBacktrack rest (rest.takeWhile jsWs).length with
    | none => none
    | some g => some (digitsToNat ds, g)

/-! ## The parser state and per-line step -/

/-- One half-move: `{ num, move }` in the source. -/
structure Ply where
  num : Nat
  move : String
deriving DecidableEq, Repr

instance : Inhabited Ply := ⟨⟨0, ""⟩⟩

/-- `my_side`: the source's `'先手' | '後手' | '不明'`. -/
inductive Side where
  | sente
  | gote
  | unknown
deriving DecidableEq, Repr

/-- `result`: the source's `'勝ち' | '負け' | '不明'`. -/
inductive GRes where
  | win
  | lose
  | unknown
deriving DecidableEq, Repr

/-- The mutable accumulator of the header/move scan loop. -/
structure ScanSt where
  gameDate : Option (List Char)
  sente : List Char
  gote : List Char
  moves : List Ply
deriving DecidableEq, Repr

def initSt : ScanSt := ⟨none, [], [], []⟩

def datePre : List Char := "開始日時：".data
def sentePre : List Char := "先手：".data
def gotePre : List Char := "後手：".data

/-- The body of the `for (const line of lines)` scan loop of `parseKif`. -/
def procLine (st : ScanSt) (l : List Char) : ScanSt :=
  if startsWithL datePre l then
    { st with gameDate := some (jsTrimL (replFirstEmpty datePre l)) }
  else if startsWithL sentePre l then
    { st with sente := jsTrimL (replFirstEmpty sentePre l) }
  else if startsWithL gotePre l then
    { st with gote := jsTrimL (replFirstEmpty gotePre l) }
  else
    match kifMoveMatch l with
    | some (n, mv) => { st with moves := st.moves ++ [⟨n, ⟨jsTrimL mv⟩⟩] }
    | none => st

/-- `kif.split('\n')` (JS semantics: `""` splits to `[""]`, a trailing
newline yields a trailing empty line). -/
def splitNL : List Char → List (List Char)
  | [] => [[]]
  | c :: rest =>
    if c = '\n' then [] :: splitNL rest
    else
      match splitNL rest with
      | h :: t => (c :: h) :: t
      | [] => [[c]]

/-- The whole header/move scan over the lines of the input. -/
def scanKif (kif : String) : ScanSt :=
  (splitNL kif.data).foldl procLine initSt

def senteWinP : List Char := "先手の勝ち".data
def goteWinP : List Char := "後手の勝ち".data

/-- The result-resolution loop of `parseKif`: first line containing
either terminal phrase decides, `break` on the first hit, `'不明'` when
no line matches. -/
def resultScan (sente gote name : List Char) : List (List Char) → GRes
  | [] => GRes.unknown
  | l :: rest =>
    if hasSubL senteWinP l then (if sente = name then GRes.win else GRes.lose)
    else if hasSubL goteWinP l then (if gote = name then GRes.win else GRes.lose)
    else resultScan sente gote name rest

/-- `detectSentype(moves, rank)`: the five ordered substring rules of the
formation classifier. -/
def detectSentype (moves : List (List Char)) (rank : List Char) : String :=
  if moves.any (fun m => hasSubL (['４'] ++ rank ++ ['飛']) m) then "右四間飛車"
  else if moves.any (fun m => hasSubL (['５'] ++ rank ++ ['飛']) m) then "中飛車"
  else if moves.any (fun m => hasSubL (['３'] ++ rank ++ ['飛']) m) then "三間飛車"
  else if moves.any (fun m =>
      hasSubL (['２'] ++ rank ++ ['飛']) m || hasSubL (['８'] ++ rank ++ ['飛']) m) then
    "向かい飛車"
  else "居飛車系"

/-- The output record (`GameRecord` in the source). -/
structure GameRecord where
  game_date : Option String
  my_side : Side
  opponent : Option String
  total_moves : Nat
  result : GRes
  my_sentype : String
  opp_sentype : String
  kif_raw : String
deriving DecidableEq, Repr

/-- The side assignment of `parseKif`:
`sente === MY_NAME ? '先手' : gote === MY_NAME ? '後手' : '不明'`. -/
def mySideOf (name : String) (st : ScanSt) : Side :=
  if st.sente = name.data then Side.sente
  else if st.gote = name.data then Side.gote
  else Side.unknown

/-- The record constructed by `parseKif` once the empty-moves check has
passed (the code from the `mySide` binding to the `return`). -/
def buildRecord (name kif : String) (st : ScanSt) (lines : List (List Char)) :
    GameRecord :=
  let mySide := mySideOf name st
  let opponent : Option String :=
    if mySide = Side.sente then some ⟨st.gote⟩
    else if mySide = Side.gote then some ⟨st.sente⟩
    else none
  let totalMoves := (st.moves.getLastD default).num
  let result := resultScan st.sente st.gote name.data lines
  let myParity : Nat := if mySide = Side.sente then 1 else 0
  let myMoves := (st.moves.filter (fun m => m.num % 2 = myParity)).map
    (fun m => m.move.data)
  let oppMoves := (st.moves.filter (fun m => ¬ m.num % 2 = myParity)).map
    (fun m => m.move.data)
  { game_date := st.gameDate.map (fun d => ⟨d⟩)
    my_side := mySide
    opponent := opponent
    total_moves := totalMoves
    result := result
    my_sentype := detectSentype myMoves (if mySide = Side.sente then ['八'] else ['二'])
    opp_sentype := detectSentype oppMoves (if mySide = Side.sente then ['二'] else ['八'])
    kif_raw := kif }

/-- `parseKif(kif)`. The process-wide `MY_NAME`
(`process.env.SHOGI_WARS_USERNAME ?? ''`) is threaded as the explicit
first argument `name`. -/
def parseKif (name : String) (kif : String) : Option GameRecord :=
  let lines := splitNL kif.data
  let st := lines.foldl procLine initSt
  if st.moves = [] then none
  else some (buildRecord name kif st lines)

/-- A line's contribution to the ply stream, as a standalone predicate:
header-prefixed lines never reach the move regex in the loop, and (as
proved below) they can never match it either, so the stream is exactly
the per-line matches in file order. -/
def lineAsPly (l : List Char) : Option Ply :=
  if startsWithL datePre l || startsWithL sentePre l || startsWithL gotePre l then none
  else (kifMoveMatch l).map (fun p => ⟨p.1, ⟨jsTrimL p.2⟩⟩)

/-- The ply numbers recognised in an input, in file order. -/
def plyNums (kif : String) : List Nat :=
  (scanKif kif).moves.map Ply.num

/-! ## Lemmas about the scan loop -/

lemma datePre_eq : datePre = ['開', '始', '日', '時', '：'] := rfl

lemma sentePre_eq : sentePre = ['先', '手', '：'] := rfl

lemma gotePre_eq : gotePre = ['後', '手', '：'] := rfl

lemma startsWithL_cons_head {p : Char} {ps l : List Char}
    (h : startsWithL (p :: ps) l = true) : ∃ cs, l = p :: cs := by
  cases l with
  | nil => simp [startsWithL] at h
  | cons c cs =>
    simp [startsWithL] at h
    exact ⟨cs, by rw [h.1]⟩

lemma sente_not_date {l : List Char} (h : startsWithL sentePre l = true) :
    startsWithL datePre l = false := by
  rw [sentePre_eq] at h
  obtain ⟨cs, rfl⟩ := startsWithL_cons_head h
  rw [datePre_eq]
  simp [startsWithL]

lemma gote_not_date {l : List Char} (h : startsWithL gotePre l = true) :
    startsWithL datePre l = false := by
  rw [gotePre_eq] at h
  obtain ⟨cs, rfl⟩ := startsWithL_cons_head h
  rw [datePre_eq]
  simp [startsWithL]

lemma gote_not_sente {l : List Char} (h : startsWithL gotePre l = true) :
    startsWithL sentePre l = false := by
  rw [gotePre_eq] at h
  obtain ⟨cs, rfl⟩ := startsWithL_cons_head h
  rw [sentePre_eq]
  simp [startsWithL]

lemma procLine_date {st : ScanSt} {l : List Char}
    (h : startsWithL datePre l = true) :
    procLine st l = { st with gameDate := some (jsTrimL (replFirstEmpty datePre l)) } := by
  simp [procLine, h]

lemma procLine_sente {st : ScanSt} {l : List Char}
    (h : startsWithL sentePre l = true) :
    procLine st l = { st with sente := jsTrimL (replFirstEmpty sentePre l) } := by
  simp [procLine, h, sente_not_date h]

lemma procLine_gote {st : ScanSt} {l : List Char}
    (h : startsWithL gotePre l = true) :
    procLine st l = { st with gote := jsTrimL (replFirstEmpty gotePre l) } := by
  simp [procLine, h, gote_not_date h, gote_not_sente h]

lemma procLine_moves (st : ScanSt) (l : List Char) :
    (procLine st l).moves = st.moves ++ (lineAsPly l).toList := by
  by_cases hd : startsWithL datePre l = true
  · simp [procLine, lineAsPly, hd]
  · by_cases hs : startsWithL sentePre l = true
    · simp [procLine, lineAsPly, hd, hs]
    · by_cases hg : startsWithL gotePre l = true
      · simp [procLine, lineAsPly, hd, hs, hg]
      · simp only [procLine, lineAsPly, hd, hs, hg, Bool.false_or, if_false]
        cases kifMoveMatch l <;> simp

lemma procLine_sente_of_not {st : ScanSt} {l : List Char}
    (h : startsWithL sentePre l = false) :
    (procLine st l).sente = st.sente := by
  by_cases hd : startsWithL datePre l = true
  · simp [procLine, hd]
  · by_cases hg : startsWithL gotePre l = true
    · simp [procLine, hd, h, hg]
    · simp only [procLine, hd, h, hg, if_false]
      cases kifMoveMatch l <;> simp

lemma procLine_gote_of_not {st : ScanSt} {l : List Char}
    (h : startsWithL gotePre l = false) :
    (procLine st l).gote = st.gote := by
  by_cases hd : startsWithL datePre l = true
  · simp [procLine, hd]
  · by_cases hs : startsWithL sentePre l = true
    · simp [procLine, hd, hs]
    · simp only [procLine, hd, hs, h, if_false]
      cases kifMoveMatch l <;> simp

lemma procLine_date_of_not {st : ScanSt} {l : List Char}
    (h : startsWithL datePre l = false) :
    (procLine st l).gameDate = st.gameDate := by
  by_cases hs : startsWithL sentePre l = true
  · simp [procLine, h, hs]
  · by_cases hg : startsWithL gotePre l = true
    · simp [procLine, h, hs, hg]
    · simp only [procLine, h, hs, hg, if_false]
      cases kifMoveMatch l <;> simp

lemma foldl_moves (ls : List (List Char)) (st : ScanSt) :
    (ls.foldl procLine st).moves = st.moves ++ ls.filterMap lineAsPly := by
  induction ls generalizing st with
  | nil => simp
  | cons l ls ih =>
    rw [List.foldl_cons, ih, procLine_moves, List.filterMap_cons]
    cases h : lineAsPly l <;> simp [h]

lemma foldl_sente_of_no (ls : List (List Char)) (st : ScanSt)
    (h : ∀ l ∈ ls, startsWithL sentePre l = false) :
    (ls.foldl procLine st).sente = st.sente := by
  induction ls generalizing st with
  | nil => rfl
  | cons l ls ih =>
    rw [List.foldl_cons, ih _ (fun l' hl' => h l' (List.mem_cons_of_mem _ hl')),
      procLine_sente_of_not (h l (List.mem_cons_self _ _))]

lemma foldl_gote_of_no (ls : List (List Char)) (st : ScanSt)
    (h : ∀ l ∈ ls, startsWithL gotePre l = false) :
    (ls.foldl procLine st).gote = st.gote := by
  induction ls generalizing st with
  | nil => rfl
  | cons l ls ih =>
    rw [List.foldl_cons, ih _ (fun l' hl' => h l' (List.mem_cons_of_mem _ hl')),
      procLine_gote_of_not (h l (List.mem_cons_self _ _))]

lemma foldl_date_of_no (ls : List (List Char)) (st : ScanSt)
    (h : ∀ l ∈ ls, startsWithL datePre l = false) :
    (ls.foldl procLine st).gameDate = st.gameDate := by
  induction ls generalizing st with
  | nil => rfl
  | cons l ls ih =>
    rw [List.foldl_cons, ih _ (fun l' hl' => h l' (List.mem_cons_of_mem _ hl')),
      procLine_date_of_not (h l (List.mem_cons_self _ _))]

/-! ## Lemmas about result resolution -/

lemma resultScan_append {s g n : List Char} {pre : List (List Char)}
    (rest : List (List Char))
    (h : ∀ l ∈ pre, hasSubL senteWinP l = false ∧ hasSubL goteWinP l = false) :
    resultScan s g n (pre ++ rest) = resultScan s g n rest := by
  induction pre with
  | nil => rfl
  | cons l pre ih =>
    rw [List.cons_append, resultScan, ih (fun l' hl' => h l' (List.mem_cons_of_mem _ hl'))]
    have h1 := (h l (List.mem_cons_self _ _)).1
    have h2 := (h l (List.mem_cons_self _ _)).2
    simp [h1, h2]

lemma resultScan_cons_sente {s g n l : List Char} (rest : List (List Char))
    (h : hasSubL senteWinP l = true) :
    resultScan s g n (l :: rest) = (if s = n then GRes.win else GRes.lose) := by
  simp [resultScan, h]

lemma resultScan_cons_gote {s g n l : List Char} (rest : List (List Char))
    (h1 : hasSubL senteWinP l = false) (h2 : hasSubL goteWinP l = true) :
    resultScan s g n (l :: rest) = (if g = n then GRes.win else GRes.lose) := by
  simp [resultScan, h1, h2]

lemma resultScan_neither {s g n : List Char} (hs : s ≠ n) (hg : g ≠ n)
    (ls : List (List Char)) :
    resultScan s g n ls =
      if ls.any (fun l => hasSubL senteWinP l || hasSubL goteWinP l) then GRes.lose
      else GRes.unknown := by
  induction ls with
  | nil => rfl
  | cons l ls ih =>
    by_cases h1 : hasSubL senteWinP l = true
    · simp [resultScan, h1, hs]
    · by_cases h2 : hasSubL goteWinP l = true
      · simp [resultScan, h1, h2, hg]
      · simp only [resultScan, h1, h2, if_false]
        rw [ih]
        simp [h1, h2]

/-! ## The per-line move contract -/

lemma kifMoveMatch_of_head {c : Char} {cs : List Char}
    (hws : jsWs c = false) (hd : c.isDigit = false) :
    kifMoveMatch (c :: cs) = none := by
  simp [kifMoveMatch, List.dropWhile_cons, hws, List.takeWhile_cons, hd]

lemma lineAsPly_eq (l : List Char) :
    lineAsPly l = (kifMoveMatch l).map (fun p => ⟨p.1, ⟨jsTrimL p.2⟩⟩) := by
  by_cases hd : startsWithL datePre l = true
  · rw [datePre_eq] at hd
    obtain ⟨cs, rfl⟩ := startsWithL_cons_head hd
    rw [lineAsPly, kifMoveMatch_of_head (by decide) (by decide)]
    simp [datePre_eq, hd]
  · by_cases hs : startsWithL sentePre l = true
    · rw [sentePre_eq] at hs
      obtain ⟨cs, rfl⟩ := startsWithL_cons_head hs
      rw [lineAsPly, kifMoveMatch_of_head (by decide) (by decide)]
      simp [sentePre_eq, hs]
    · by_cases hg : startsWithL gotePre l = true
      · rw [gotePre_eq] at hg
        obtain ⟨cs, rfl⟩ := startsWithL_cons_head hg
        rw [lineAsPly, kifMoveMatch_of_head (by decide) (by decide)]
        simp [gotePre_eq, hg]
      · simp [lineAsPly, hd, hs, hg]

lemma scanKif_moves (kif : String) :
    (scanKif kif).moves =
      (splitNL kif.data).filterMap
        (fun l => (kifMoveMatch l).map (fun p => (⟨p.1, ⟨jsTrimL p.2⟩⟩ : Ply))) := by
  rw [scanKif, foldl_moves]
  simp only [initSt, List.nil_append]
  exact List.filterMap_congr (fun l _ => lineAsPly_eq l)

/-! ## Unfolding `parseKif` -/

lemma parseKif_eq_none {name kif : String} (h : (scanKif kif).moves = []) :
    parseKif name kif = none := by
  rw [parseKif]
  rw [scanKif] at h
  simp [h]

lemma parseKif_eq_some {name kif : String} (h : (scanKif kif).moves ≠ []) :
    parseKif name kif = some (buildRecord name kif (scanKif kif) (splitNL kif.data)) := by
  rw [parseKif]
  rw [scanKif] at h
  simp [h]
  rfl

/-! ## Claim theorems -/

/-- C3: `parseKif` returns no record exactly when zero lines of the input
match the move-line pattern; any input with at least one move line
produces a record (missing headers, absent result phrase or unmatched
tracked name never cause failure). -/
theorem parseKif_none_iff_no_move_lines (name kif : String) :
    parseKif name kif = none ↔ ∀ l ∈ splitNL kif.data, kifMoveMatch l = none := by
  constructor
  · intro h l hl
    by_cases hm : (scanKif kif).moves = []
    · rw [scanKif_moves, List.filterMap_eq_nil_iff] at hm
      have hline := hm l hl
      cases hmm : kifMoveMatch l with
      | none => rfl
      | some p => rw [hmm] at hline; simp at hline
    · rw [parseKif_eq_some hm] at h
      cases h
  · intro h
    apply parseKif_eq_none
    rw [scanKif_moves, List.filterMap_eq_nil_iff]
    intro l hl
    rw [h l hl]
    rfl

/-- C8: a line of the input contributes a ply exactly when it matches the
embedded move-line regular expression `/^\s*(\d+)\s+(.+?)\s+\(/`; each
matching line yields one ply carrying the parsed ply number and trimmed
move-text capture, non-matching lines (including header lines, which can
never match) are ignored, and the ply sequence is in file-line order. -/
theorem scan_moves_are_line_matches (kif : String) :
    (scanKif kif).moves =
      (splitNL kif.data).filterMap
        (fun l => (kifMoveMatch l).map (fun p => (⟨p.1, ⟨jsTrimL p.2⟩⟩ : Ply))) :=
  scanKif_moves kif

/-- C4: the formation classifier applies its five substring rules in the
fixed priority order file-4, file-5, file-3, (file-2 or file-8), generic
default, matching when ANY move text of the whole list contains the
rule's substring; in particular a list containing both a file-4 pattern
and a file-5 pattern is tagged `右四間飛車`. -/
theorem detectSentype_priority (moves : List (List Char)) (rank : List Char) :
    (moves.any (fun m => hasSubL (['４'] ++ rank ++ ['飛']) m) = true →
      detectSentype moves rank = "右四間飛車") ∧
    (moves.any (fun m => hasSubL (['４'] ++ rank ++ ['飛']) m) = false →
      moves.any (fun m => hasSubL (['５'] ++ rank ++ ['飛']) m) = true →
      detectSentype moves rank = "中飛車") ∧
    (moves.any (fun m => hasSubL (['４'] ++ rank ++ ['飛']) m) = false →
      moves.any (fun m => hasSubL (['５'] ++ rank ++ ['飛']) m) = false →
      moves.any (fun m => hasSubL (['３'] ++ rank ++ ['飛']) m) = true →
      detectSentype moves rank = "三間飛車") ∧
    (moves.any (fun m => hasSubL (['４'] ++ rank ++ ['飛']) m) = false →
      moves.any (fun m => hasSubL (['５'] ++ rank ++ ['飛']) m) = false →
      moves.any (fun m => hasSubL (['３'] ++ rank ++ ['飛']) m) = false →
      moves.any (fun m =>
        hasSubL (['２'] ++ rank ++ ['飛']) m || hasSubL (['８'] ++ rank ++ ['飛']) m) = true →
      detectSentype moves rank = "向かい飛車") ∧
    (moves.any (fun m => hasSubL (['４'] ++ rank ++ ['飛']) m) = false →
      moves.any (fun m => hasSubL (['５'] ++ rank ++ ['飛']) m) = false →
      moves.any (fun m => hasSubL (['３'] ++ rank ++ ['飛']) m) = false →
      moves.any (fun m =>
        hasSubL (['２'] ++ rank ++ ['飛']) m || hasSubL (['８'] ++ rank ++ ['飛']) m) = false →
      detectSentype moves rank = "居飛車系") ∧
    (moves.any (fun m => hasSubL (['４'] ++ rank ++ ['飛']) m) = true →
      moves.any (fun m => hasSubL (['５'] ++ rank ++ ['飛']) m) = true →
      detectSentype moves rank = "右四間飛車") := by
  refine ⟨fun h4 => ?_, fun h4 h5 => ?_, fun h4 h5 h3 => ?_,
    fun h4 h5 h3 h28 => ?_, fun h4 h5 h3 h28 => ?_, fun h4 _ => ?_⟩
  · simp only [detectSentype, h4, if_true]
  · simp only [detectSentype, h4, h5, if_true, Bool.false_eq_true, if_false]
  · simp only [detectSentype, h4, h5, h3, if_true, Bool.false_eq_true, if_false]
  · simp only [detectSentype, h4, h5, h3, h28, if_true, Bool.false_eq_true, if_false]
  · simp only [detectSentype, h4, h5, h3, h28, Bool.false_eq_true, if_false]
  · simp only [detectSentype, h4, if_true]

/-- C4 witness: a list containing a file-4-rook and a file-5-rook move is
tagged `右四間飛車`. -/
theorem detectSentype_priority_witness :
    detectSentype [['４', '二', '飛'], ['５', '二', '飛']] ['二'] = "右四間飛車" :=
  (detectSentype_priority [['４', '二', '飛'], ['５', '二', '飛']] ['二']).2.2.2.2.2
    (by decide) (by decide)

/-- C9: the derivation is deterministic — identical raw text and tracked
name give identical results — and the returned record retains the input
verbatim in `kif_raw`. -/
theorem parseKif_deterministic (name name' kif kif' : String)
    (h1 : kif = kif') (h2 : name = name') :
    parseKif name kif = parseKif name' kif' ∧
      ∀ r, parseKif name kif = some r → r.kif_raw = kif := by
  subst h1
  subst h2
  refine ⟨rfl, fun r hr => ?_⟩
  by_cases hm : (scanKif kif).moves = []
  · rw [parseKif_eq_none hm] at hr
    cases hr
  · rw [parseKif_eq_some hm] at hr
    injection hr with h3
    rw [← h3]
    simp [buildRecord]

/-- C9 witness: on a concrete input the two equal invocations agree and
`kif_raw` is the input verbatim. -/
theorem parseKif_deterministic_witness :
    parseKif "A" "1 x (1)" = parseKif "A" "1 x (1)" ∧
      (parseKif "A" "1 x (1)").map GameRecord.kif_raw = some "1 x (1)" := by
  have h := parseKif_deterministic "A" "A" "1 x (1)" "1 x (1)" rfl rfl
  refine ⟨h.1, ?_⟩
  cases hp : parseKif "A" "1 x (1)" with
  | none => exact absurd hp (by decide)
  | some r => simp [h.2 r hp]

/-- C1 counterexample: with the tracked name equal to BOTH declared
names, `my_side` is `先手`, not `不明` — the first comparison of the
ternary chain wins. -/
theorem bothMatch_side_counterexample :
    (scanKif "先手：A\n後手：A\n1 x (1)").sente = "A".data ∧
    (scanKif "先手：A\n後手：A\n1 x (1)").gote = "A".data ∧
    (parseKif "A" "先手：A\n後手：A\n1 x (1)").map GameRecord.my_side = some Side.sente ∧
    some Side.sente ≠ some Side.unknown := by
  decide

/-- C1 amended: when the tracked name equals both declared names the
first comparison wins: `my_side` is `先手` and `opponent` is the declared
second-mover name (the tracked name itself), not null; `不明` arises only
when the name matches neither. -/
theorem bothMatch_side_sente (name kif : String)
    (hs : (scanKif kif).sente = name.data) (hg : (scanKif kif).gote = name.data)
    (hm : (scanKif kif).moves ≠ []) :
    (parseKif name kif).map GameRecord.my_side = some Side.sente ∧
      (parseKif name kif).map GameRecord.opponent = some (some name) := by
  rw [parseKif_eq_some hm]
  constructor
  · simp [buildRecord, mySideOf, hs]
  · simp only [Option.map_some']
    simp [buildRecord, mySideOf, hs, hg]

/-- C1 amended witness: concrete both-match input. -/
theorem bothMatch_side_sente_witness :
    (parseKif "A" "先手：A\n後手：A\n1 x (1)").map GameRecord.my_side = some Side.sente ∧
      (parseKif "A" "先手：A\n後手：A\n1 x (1)").map GameRecord.opponent = some (some "A") :=
  bothMatch_side_sente "A" "先手：A\n後手：A\n1 x (1)" (by decide) (by decide) (by decide)

/-- C2 counterexample: tracked name matching neither declared name gives
`my_side = 不明` and `opponent = null`, but a win phrase still sets
`result = 負け` — the result loop never checks `my_side`. -/
theorem neitherMatch_result_counterexample :
    (scanKif "先手：A\n後手：B\n1 x (1)\n先手の勝ち").sente ≠ "C".data ∧
    (scanKif "先手：A\n後手：B\n1 x (1)\n先手の勝ち").gote ≠ "C".data ∧
    (parseKif "C" "先手：A\n後手：B\n1 x (1)\n先手の勝ち").map GameRecord.my_side =
      some Side.unknown ∧
    (parseKif "C" "先手：A\n後手：B\n1 x (1)\n先手の勝ち").map GameRecord.result =
      some GRes.lose ∧
    some GRes.lose ≠ some GRes.unknown := by
  decide

/-- C2 amended: when the tracked name matches neither declared name,
`my_side` is `不明` and `opponent` is null, but `result` is `負け`
whenever any line contains either terminal win phrase (and `不明` only
when none does). -/
theorem neitherMatch_fields (name kif : String)
    (hs : (scanKif kif).sente ≠ name.data) (hg : (scanKif kif).gote ≠ name.data)
    (hm : (scanKif kif).moves ≠ []) :
    (parseKif name kif).map GameRecord.my_side = some Side.unknown ∧
      (parseKif name kif).map GameRecord.opponent = some none ∧
      (parseKif name kif).map GameRecord.result =
        some (if (splitNL kif.data).any
                (fun l => hasSubL senteWinP l || hasSubL goteWinP l)
              then GRes.lose else GRes.unknown) := by
  rw [parseKif_eq_some hm]
  refine ⟨?_, ?_, ?_⟩
  · simp [buildRecord, mySideOf, hs, hg]
  · simp [buildRecord, mySideOf, hs, hg]
  · simp only [Option.map_some', Option.some.injEq]
    have hb : (buildRecord name kif (scanKif kif) (splitNL kif.data)).result =
        resultScan (scanKif kif).sente (scanKif kif).gote name.data (splitNL kif.data) := by
      simp [buildRecord]
    rw [hb, resultScan_neither hs hg]

/-- C2 amended witness: concrete neither-match input with a win phrase. -/
theorem neitherMatch_fields_witness :
    (parseKif "C" "先手：A\n後手：B\n1 x (1)\n先手の勝ち").map GameRecord.my_side =
      some Side.unknown ∧
    (parseKif "C" "先手：A\n後手：B\n1 x (1)\n先手の勝ち").map GameRecord.opponent =
      some none ∧
    (parseKif "C" "先手：A\n後手：B\n1 x (1)\n先手の勝ち").map GameRecord.result =
      some GRes.lose := by
  obtain ⟨h1, h2, h3⟩ :=
    neitherMatch_fields "C" "先手：A\n後手：B\n1 x (1)\n先手の勝ち"
      (by decide) (by decide) (by decide)
  refine ⟨h1, h2, ?_⟩
  rw [h3]
  decide

/-- C5: the result resolution stops at the first line (in file order)
containing either terminal win phrase; with a clean prefix, a line
containing `先手の勝ち` maps the first mover to win/loss, and a line
containing only `後手の勝ち` maps the second mover. -/
theorem resultResolution_first_match (name kif : String) (pre : List (List Char))
    (l : List Char) (post : List (List Char))
    (hsplit : splitNL kif.data = pre ++ l :: post)
    (hpre : ∀ l' ∈ pre, hasSubL senteWinP l' = false ∧ hasSubL goteWinP l' = false)
    (hm : (scanKif kif).moves ≠ []) :
    (hasSubL senteWinP l = true →
      (parseKif name kif).map GameRecord.result =
        some (if (scanKif kif).sente = name.data then GRes.win else GRes.lose)) ∧
    (hasSubL senteWinP l = false → hasSubL goteWinP l = true →
      (parseKif name kif).map GameRecord.result =
        some (if (scanKif kif).gote = name.data then GRes.win else GRes.lose)) := by
  rw [parseKif_eq_some hm]
  have hb : (buildRecord name kif (scanKif kif) (splitNL kif.data)).result =
      resultScan (scanKif kif).sente (scanKif kif).gote name.data (splitNL kif.data) := by
    simp [buildRecord]
  constructor
  · intro h
    rw [Option.map_some', hb, hsplit, resultScan_append _ hpre,
      resultScan_cons_sente _ h]
  · intro h1 h2
    rw [Option.map_some', hb, hsplit, resultScan_append _ hpre,
      resultScan_cons_gote _ h1 h2]

/-- C5 witness: with a `後手の勝ち` line before a `先手の勝ち` line, the
earlier line decides (tracked empty name equals the absent gote header,
so the result is a win). -/
theorem resultResolution_first_match_witness :
    (parseKif "" "1 x (1)\n後手の勝ち\n先手の勝ち").map GameRecord.result =
      some GRes.win := by
  have h := (resultResolution_first_match "" "1 x (1)\n後手の勝ち\n先手の勝ち"
    ["1 x (1)".data] "後手の勝ち".data ["先手の勝ち".data]
    (by decide) (by decide) (by decide)).2 (by decide) (by decide)
  rw [h]
  decide

/-- Auxiliary: the last ply number of a mapped list. -/
lemma getLastD_map_num (ms : List Ply) (m : Ply) :
    (ms.map Ply.num).getLastD m.num = (ms.getLastD m).num := by
  induction ms generalizing m with
  | nil => rfl
  | cons a ms ih => rw [List.map_cons, List.getLastD_cons, List.getLastD_cons, ih]

/-- C6 counterexample: with move lines numbered 3 then 1, `total_moves`
is 1 (the last recognised line's ply number), not the maximum observed
ply number 3. -/
theorem totalMoves_not_max_counterexample :
    plyNums "3 ７六歩 (1)\n1 ２六歩 (1)" = [3, 1] ∧
    (parseKif "" "3 ７六歩 (1)\n1 ２六歩 (1)").map GameRecord.total_moves = some 1 ∧
    (parseKif "" "3 ７六歩 (1)\n1 ２六歩 (1)").map GameRecord.total_moves ≠
      some ((plyNums "3 ７六歩 (1)\n1 ２六歩 (1)").foldr max 0) := by
  decide

/-- C6 amended: `total_moves` equals the ply number of the last line
recognised as a move line, in file order (hence re-ordering move lines
changes it even when the set of ply numbers is unchanged; it is the
maximum only when ply numbers increase in file order). -/
theorem totalMoves_is_last_ply (name kif : String) (h : plyNums kif ≠ []) :
    (parseKif name kif).map GameRecord.total_moves =
      some ((plyNums kif).getLastD 0) := by
  have hm : (scanKif kif).moves ≠ [] := fun hc => h (by rw [plyNums, hc]; rfl)
  rw [parseKif_eq_some hm, Option.map_some']
  have hb : (buildRecord name kif (scanKif kif) (splitNL kif.data)).total_moves =
      ((scanKif kif).moves.getLastD default).num := by
    simp [buildRecord]
  rw [hb, plyNums]
  cases hms : (scanKif kif).moves with
  | nil => exact absurd hms hm
  | cons a ms =>
    rw [List.map_cons, List.getLastD_cons, List.getLastD_cons, getLastD_map_num]

/-- C6 amended witness: on the reordered input the last ply number is 1. -/
theorem totalMoves_is_last_ply_witness :
    plyNums "3 ７六歩 (1)\n1 ２六歩 (1)" ≠ [] ∧
      (parseKif "" "3 ７六歩 (1)\n1 ２六歩 (1)").map GameRecord.total_moves =
        some ((plyNums "3 ７六歩 (1)\n1 ２六歩 (1)").getLastD 0) :=
  ⟨by decide, totalMoves_is_last_ply "" "3 ７六歩 (1)\n1 ２六歩 (1)" (by decide)⟩

/-- C7: header extraction is last-occurrence-wins — for each of the
three header prefixes, a matching line followed by no later matching
line determines the stored field, whatever came before it. -/
theorem header_last_occurrence_wins (kif : String) (pre : List (List Char))
    (l : List Char) (post : List (List Char))
    (hsplit : splitNL kif.data = pre ++ l :: post) :
    (startsWithL datePre l = true →
      (∀ l' ∈ post, startsWithL datePre l' = false) →
      (scanKif kif).gameDate = some (jsTrimL (replFirstEmpty datePre l))) ∧
    (startsWithL sentePre l = true →
      (∀ l' ∈ post, startsWithL sentePre l' = false) →
      (scanKif kif).sente = jsTrimL (replFirstEmpty sentePre l)) ∧
    (startsWithL gotePre l = true →
      (∀ l' ∈ post, startsWithL gotePre l' = false) →
      (scanKif kif).gote = jsTrimL (replFirstEmpty gotePre l)) := by
  rw [scanKif, hsplit, List.foldl_append, List.foldl_cons]
  refine ⟨fun h hpost => ?_, fun h hpost => ?_, fun h hpost => ?_⟩
  · rw [foldl_date_of_no _ _ hpost, procLine_date h]
  · rw [foldl_sente_of_no _ _ hpost, procLine_sente h]
  · rw [foldl_gote_of_no _ _ hpost, procLine_gote h]

/-- C7 witness: an input repeating every header line stores the last
occurrence of each. -/
theorem header_last_occurrence_wins_witness :
    (scanKif "開始日時：D1\n開始日時：D2\n先手：A\n先手：B\n後手：C\n後手：E\n1 x (1)").gameDate =
      some "D2".data ∧
    (scanKif "開始日時：D1\n開始日時：D2\n先手：A\n先手：B\n後手：C\n後手：E\n1 x (1)").sente =
      ['B'] ∧
    (scanKif "開始日時：D1\n開始日時：D2\n先手：A\n先手：B\n後手：C\n後手：E\n1 x (1)").gote =
      ['E'] := by
  refine ⟨?_, ?_, ?_⟩
  · have h := (header_last_occurrence_wins
      "開始日時：D1\n開始日時：D2\n先手：A\n先手：B\n後手：C\n後手：E\n1 x (1)"
      ["開始日時：D1".data] "開始日時：D2".data
      ["先手：A".data, "先手：B".data, "後手：C".data, "後手：E".data, "1 x (1)".data]
      (by decide)).1 (by decide) (by decide)
    rw [h]
    decide
  · have h := (header_last_occurrence_wins
      "開始日時：D1\n開始日時：D2\n先手：A\n先手：B\n後手：C\n後手：E\n1 x (1)"
      ["開始日時：D1".data, "開始日時：D2".data, "先手：A".data] "先手：B".data
      ["後手：C".data, "後手：E".data, "1 x (1)".data]
      (by decide)).2.1 (by decide) (by decide)
    rw [h]
    decide
  · have h := (header_last_occurrence_wins
      "開始日時：D1\n開始日時：D2\n先手：A\n先手：B\n後手：C\n後手：E\n1 x (1)"
      ["開始日時：D1".data, "開始日時：D2".data, "先手：A".data, "先手：B".data, "後手：C".data]
      "後手：E".data ["1 x (1)".data]
      (by decide)).2.2 (by decide) (by decide)
    rw [h]
    decide

/-- C10: when the tracked name matches neither declared name (side
`不明`), the parity split and rank markers are those of the second-mover
case: even-numbered plies are "mine" (parity 0), classified with rank
`二`, odd-numbered plies are the opponent's, classified with rank `八` —
identical to the assigned-`後手` case, stated alongside it. -/
theorem unknownSide_parity_and_ranks :
    (∀ name kif : String,
      (scanKif kif).sente ≠ name.data → (scanKif kif).gote ≠ name.data →
      (scanKif kif).moves ≠ [] →
      (parseKif name kif).map GameRecord.my_sentype =
        some (detectSentype
          (((scanKif kif).moves.filter (fun m => m.num % 2 = 0)).map
            (fun m => m.move.data)) ['二']) ∧
      (parseKif name kif).map GameRecord.opp_sentype =
        some (detectSentype
          (((scanKif kif).moves.filter (fun m => ¬ m.num % 2 = 0)).map
            (fun m => m.move.data)) ['八'])) ∧
    (∀ name kif : String,
      (scanKif kif).sente ≠ name.data → (scanKif kif).gote = name.data →
      (scanKif kif).moves ≠ [] →
      (parseKif name kif).map GameRecord.my_sentype =
        some (detectSentype
          (((scanKif kif).moves.filter (fun m => m.num % 2 = 0)).map
            (fun m => m.move.data)) ['二']) ∧
      (parseKif name kif).map GameRecord.opp_sentype =
        some (detectSentype
          (((scanKif kif).moves.filter (fun m => ¬ m.num % 2 = 0)).map
            (fun m => m.move.data)) ['八'])) := by
  constructor <;> intro name kif hs hg hm <;> rw [parseKif_eq_some hm] <;>
    exact ⟨by simp [buildRecord, mySideOf, hs, hg], by simp [buildRecord, mySideOf, hs, hg]⟩

/-- C10 witness: a concrete input evaluated in the unknown-side case and
in the gote case, giving the same parity/rank classification. -/
theorem unknownSide_parity_and_ranks_witness :
    ((parseKif "C" "先手：A\n後手：B\n1 ５八飛 (1)\n2 ５二飛 (1)").map GameRecord.my_sentype =
        some "中飛車" ∧
      (parseKif "C" "先手：A\n後手：B\n1 ５八飛 (1)\n2 ５二飛 (1)").map GameRecord.opp_sentype =
        some "中飛車") ∧
    ((parseKif "B" "先手：A\n後手：B\n1 ５八飛 (1)\n2 ５二飛 (1)").map GameRecord.my_sentype =
        some "中飛車" ∧
      (parseKif "B" "先手：A\n後手：B\n1 ５八飛 (1)\n2 ５二飛 (1)").map GameRecord.opp_sentype =
        some "中飛車") := by
  obtain ⟨h1, h2⟩ := unknownSide_parity_and_ranks.1 "C"
    "先手：A\n後手：B\n1 ５八飛 (1)\n2 ５二飛 (1)" (by decide) (by decide) (by decide)
  obtain ⟨h3, h4⟩ := unknownSide_parity_and_ranks.2 "B"
    "先手：A\n後手：B\n1 ５八飛 (1)\n2 ５二飛 (1)" (by decide) (by decide) (by decide)
  exact ⟨⟨by rw [h1]; decide, by rw [h2]; decide⟩,
    ⟨by rw [h3]; decide, by rw [h4]; decide⟩⟩

end KifParser
